import Mathlib

/-!
Shallow embedding of the pipeline-sage autonomous DevOps agent backend
(scoring engine, branch-name derivation, sandbox executor, error
classifier, fix generator, patch applier, submit-run validation and the
orchestrator heal loop), together with theorems checking the
natural-language specification against it.

JavaScript strings are modelled as Lean `String`/`List Char`; JavaScript
numbers that the code uses as integers are modelled as `Int`/`Nat`;
nullable values as `Option`; the filesystem as a partial map from paths
to file contents.
-/

set_option autoImplicit false

namespace PipelineSage

/-! ### JavaScript string primitives -/

/-- The characters matched by the JavaScript regex class `\s` (the ASCII
ones; the exotic Unicode space characters are not modelled). -/
def isJsWs (c : Char) : Bool :=
  c = ' ' || c = '\t' || c = '\n' || c = '\r' || c = '\x0b' || c = '\x0c'

/-- Model of JavaScript `String.prototype.trim`: strip `\s` characters
from both ends. -/
def jsTrim (s : String) : String :=
  String.mk (((s.toList.dropWhile isJsWs).reverse.dropWhile isJsWs).reverse)

/-- Model of JavaScript `String.prototype.includes` (case-sensitive
substring test). -/
def strContains (s pat : String) : Bool :=
  s.toList.tails.any (fun t => pat.toList.isPrefixOf t)

/-- Truthiness of a nullable JavaScript string: `null`/`undefined` and
the empty string are falsy. -/
def jsFalsyStr : Option String → Bool
  | none => true
  | some s => s = ""

/-- Model of JavaScript `String.prototype.split` with a one-character
separator (`""` splits to `[""]`, a trailing separator yields a final
empty field). -/
def splitOnChar (sep : Char) : List Char → List (List Char)
  | [] => [[]]
  | c :: rest =>
    match splitOnChar sep rest with
    | [] => [[]]
    | g :: gs => if c = sep then [] :: g :: gs else (c :: g) :: gs

/-- String-level `split` on one character. -/
def jsSplit (sep : Char) (s : String) : List String :=
  (splitOnChar sep s.toList).map String.mk

/-- Model of `Array.prototype.join("\n")`. -/
def joinWithNl : List (List Char) → List Char
  | [] => []
  | [g] => g
  | g :: g2 :: gs => g ++ '\n' :: joinWithNl (g2 :: gs)

/-! ### Scoring engine (`backend/src/utils/scoring.js`, `computeScore`) -/

/-- The breakdown object returned by `computeScore`.  The code stores the
penalties negated (`breakdown.commitPenalty = -commitPenalty`). -/
structure ScoreBreakdown where
  base : Int
  speedBonus : Int
  fixBonus : Int
  commitPenalty : Int
  iterationPenalty : Int
  total : Int
  deriving DecidableEq, Repr

/-- Embedding of `computeScore({ totalTime, commitCount, fixCount,
iterationCount })`. -/
def computeScore (totalTime commitCount fixCount iterationCount : Int) : ScoreBreakdown :=
  let speedBonus : Int := if totalTime < 300000 then 10 else 0
  let fixBonus : Int := min fixCount 20 * 2
  let commitPenalty : Int := if commitCount > 20 then (commitCount - 20) * 2 else 0
  let iterPenalty : Int := if iterationCount > 3 then (iterationCount - 3) * 5 else 0
  let total : Int := 100 + speedBonus + fixBonus - commitPenalty - iterPenalty
  { base := 100
    speedBonus := speedBonus
    fixBonus := fixBonus
    commitPenalty := -commitPenalty
    iterationPenalty := -iterPenalty
    total := max total 0 }

/-! ### Branch-name derivation (`backend/src/utils/helpers.js`,
`generateBranchName`) -/

/-- Keep exactly the characters the regex `[^A-Z0-9\s]` does not delete
(the replace is applied after `toUpperCase`). -/
def keepBranchChar (c : Char) : Bool :=
  ('A' ≤ c && c ≤ 'Z') || ('0' ≤ c && c ≤ '9') || isJsWs c

/-- Model of `replace(/\s+/g, "_")`: every maximal run of whitespace
becomes a single underscore.  The flag records whether the previous
character belonged to a run that has already produced its underscore. -/
def collapseWsAux : Bool → List Char → List Char
  | _, [] => []
  | inRun, c :: rest =>
    if isJsWs c then
      if inRun then collapseWsAux true rest
      else '_' :: collapseWsAux true rest
    else c :: collapseWsAux false rest

/-- The `sanitize` closure inside `generateBranchName`:
trim, uppercase, strip `[^A-Z0-9\s]`, collapse `\s+` to `_`. -/
def sanitize (s : String) : String :=
  String.mk (collapseWsAux false (((jsTrim s).toList.map Char.toUpper).filter keepBranchChar))

/-- Embedding of `generateBranchName(teamName, leaderName)`. -/
def generateBranchName (teamName leaderName : String) : String :=
  sanitize teamName ++ "_" ++ sanitize leaderName ++ "_AI_Fix"

/-- Derivation written from the words of the claim (C8): uppercase,
strip non-alphanumerics (other than whitespace, which the next step
consumes), collapse whitespace runs to a single underscore, join with an
underscore, append the fixed suffix.  The claim mentions no initial
trim; this definition therefore has none. -/
def specCollapse : List Char → List Char
  | [] => []
  | c :: rest =>
    if isJsWs c then
      match rest with
      | [] => ['_']
      | d :: _ => if isJsWs d then specCollapse rest else '_' :: specCollapse rest
    else c :: specCollapse rest

/-- The per-component derivation of the claim's words (no trim). -/
def claimSanitize (s : String) : String :=
  String.mk (specCollapse ((s.toList.map Char.toUpper).filter keepBranchChar))

/-- Branch name derived exactly as the claim words it. -/
def claimBranchName (teamName leaderName : String) : String :=
  claimSanitize teamName ++ "_" ++ claimSanitize leaderName ++ "_AI_Fix"

/-! ### Sandbox executor (`backend/src/utils/docker.js`) -/

/-- The fixed marker the container path writes to stderr on timeout. -/
def TIMEOUT_MARKER : String := "TIMEOUT: Command execution exceeded time limit"

/-- Truncation applied to the captured streams: keep the last 50000
characters (`slice(-50000)`). -/
def truncJs (s : String) : String :=
  if s.length > 50000 then String.mk (s.toList.drop (s.toList.length - 50000)) else s

/-- Result shape `{ exitCode, stdout, stderr }` of both executor modes. -/
structure ExecResult where
  exitCode : Int
  stdout : String
  stderr : String
  deriving DecidableEq, Repr

/-- How the container race in `_runInDockerContainer` can end: the wait
promise finished with a status code, the timeout fired first, or one of
the awaited Docker calls inside the `try` threw. -/
inductive DockerOutcome where
  | timedOut
  | finished (statusCode : Int) (stdout stderr : String)
  | threw (msg : String)

/-- Embedding of the result construction of `_runInDockerContainer`
(lines 115-179): `exitCode` starts at 1 and `stdout`/`stderr` start
empty; on timeout the code sets `exitCode = 124` and `stderr` to the
TIMEOUT marker; on a throw only `stderr` is overwritten; both streams
are truncated at the end. -/
def dockerContainerResult : DockerOutcome → ExecResult
  | .timedOut => { exitCode := 124, stdout := truncJs "", stderr := truncJs TIMEOUT_MARKER }
  | .finished c o e => { exitCode := c, stdout := truncJs o, stderr := truncJs e }
  | .threw m => { exitCode := 1, stdout := truncJs "", stderr := truncJs m }

/-- How the `child_process.exec` callback of `_runNative` can be called:
no error; an error carrying a (possibly `null`) `code`; or the timeout
kill, in which Node passes an error whose `code` is `null` (the child
was killed by signal), with whatever partial streams were captured. -/
inductive NativeOutcome where
  | completed (stdout stderr : String)
  | failed (code : Option Int) (stdout stderr : String)
  | timedOutKilled (stdout stderr : String)

/-- JavaScript `error.code || 1`: `null` and `0` are falsy. -/
def jsOrOne : Option Int → Int
  | some c => if c = 0 then 1 else c
  | none => 1

/-- Embedding of the result construction of `_runNative` (lines 59-77):
`exitCode = error ? (error.code || 1) : 0`, streams truncated. -/
def nativeResult : NativeOutcome → ExecResult
  | .completed o e => { exitCode := 0, stdout := truncJs o, stderr := truncJs e }
  | .failed code o e => { exitCode := jsOrOne code, stdout := truncJs o, stderr := truncJs e }
  | .timedOutKilled o e => { exitCode := jsOrOne none, stdout := truncJs o, stderr := truncJs e }

/-! ### Error classifier (`backend/src/utils/logger.js` classifier part:
`BUG_TYPES`, `PATTERNS`, `classifyError`, `extractLocation`,
`parseErrorLog`) -/

/-- The `BUG_TYPES` table. -/
inductive BugType where
  | SYNTAX | LINTING | LOGIC | TYPE_ERROR | IMPORT | INDENTATION | RUNTIME | UNKNOWN
  deriving DecidableEq, Repr

/-- String value of a bug type (the JS constants are these strings). -/
def bugTypeStr : BugType → String
  | .SYNTAX => "SYNTAX"
  | .LINTING => "LINTING"
  | .LOGIC => "LOGIC"
  | .TYPE_ERROR => "TYPE_ERROR"
  | .IMPORT => "IMPORT"
  | .INDENTATION => "INDENTATION"
  | .RUNTIME => "RUNTIME"
  | .UNKNOWN => "UNKNOWN"

/-- Substring test on char lists. -/
def containsSub (l pat : List Char) : Bool :=
  l.tails.any (fun t => pat.isPrefixOf t)

/-- Case-insensitive containment used for the literal alternatives of the
`/.../i` patterns: both sides lowercased. -/
def icontains (l : List Char) (pat : String) : Bool :=
  containsSub l pat.toList

/-- Match `a.*b` inside a line: an occurrence of `a`, then a run of
characters none of which is a line terminator (the JS `.`), then an
occurrence of `b`.  `l` is already lowercased. -/
def icontainsSeq (l : List Char) (a b : String) : Bool :=
  l.tails.any (fun t =>
    a.toList.isPrefixOf t &&
      (let rest := t.drop a.toList.length
       (List.range (rest.length + 1)).any (fun k =>
         ((rest.take k).all (fun c => c ≠ '\n' && c ≠ '\r')) &&
           b.toList.isPrefixOf (rest.drop k))))

/-- Embedding of `classifyError(errorLine)`: walk `PATTERNS` in
declaration order, first match wins, `UNKNOWN` if none matches.  All
patterns carry the `i` flag, so matching is done on the lowercased
line. -/
def classifyError (line : String) : BugType :=
  let l := line.toList.map Char.toLower
  if icontains l "syntaxerror" || icontains l "unexpected token" ||
     icontains l "invalid syntax" || icontains l "eol while scanning" then .SYNTAX
  else if icontains l "indentationerror" || icontains l "unexpected indent" ||
     icontains l "expected an indented block" then .INDENTATION
  else if icontains l "typeerror" || icontainsSeq l "type" "mismatch" ||
     icontains l "cannot read propert" then .TYPE_ERROR
  else if icontains l "importerror" || icontains l "modulenotfounderror" ||
     icontains l "cannot find module" || icontains l "no module named" then .IMPORT
  else if icontains l "assertionerror" || icontainsSeq l "expected" "to equal" ||
     icontainsSeq l "expected" "to be" || icontainsSeq l "expected" "to match" ||
     icontains l "assert" then .LOGIC
  else if icontains l "eslint" || icontains l "lint" || icontains l "prettier" ||
     icontainsSeq l "warning" "rule" then .LINTING
  else if icontains l "referenceerror" || icontains l "nameerror" ||
     icontains l "is not defined" then .RUNTIME
  else .UNKNOWN

/-- JS digit class `\d`. -/
def isDigitC (c : Char) : Bool := '0' ≤ c && c ≤ '9'

/-- JS word class `\w` = `[A-Za-z0-9_]`. -/
def isWordC (c : Char) : Bool :=
  ('a' ≤ c && c ≤ 'z') || ('A' ≤ c && c ≤ 'Z') || isDigitC c || c = '_'

/-- Value of `parseInt` on a nonempty digit run. -/
def digitsToNat (ds : List Char) : Nat :=
  ds.foldl (fun n c => n * 10 + (c.toNat - '0'.toNat)) 0

/-- Try the whole regex at every start position, leftmost first (the JS
engine's match search order). -/
def firstSome {α : Type} (l : List Char) (f : List Char → Option α) : Option α :=
  l.tails.findSome? f

/-- Match of `File "([^"]+)", line (\d+)` anchored at the given suffix.
The capture `[^"]+` cannot cross a quote, so it is the run up to the
next quote; the literal `", line "` and at least one digit must
follow. -/
def matchFileLineAt (t : List Char) : Option (String × Nat) :=
  if ("File \"".toList).isPrefixOf t then
    let rest := t.drop 6
    let name := rest.takeWhile (fun c => c ≠ '"')
    if name.isEmpty then none
    else
      match rest.drop name.length with
      | '"' :: after =>
        if (", line ".toList).isPrefixOf after then
          let ds := (after.drop 7).takeWhile isDigitC
          if ds.isEmpty then none else some (String.mk name, digitsToNat ds)
        else none
      | _ => none
  else none

/-- Match of the tail `([^\s(]+):(\d+):\d+` of the stack-frame regex
anchored at `cs`.  The capture is greedy over `[^\s(]` and backtracks
(largest length first) until `:` + digits + `:` + digits follows; a
`(\d+)` run must be maximal because a shorter run would leave a digit
where `:` is required. -/
def captureColonPart (cs : List Char) : Option (String × Nat) :=
  let r := cs.takeWhile (fun c => !isJsWs c && c ≠ '(')
  if r.isEmpty then none
  else
    ((List.range (r.length + 1)).reverse).findSome? (fun t =>
      if t = 0 then none
      else
        match cs.drop t with
        | ':' :: rest1 =>
          let d1 := rest1.takeWhile isDigitC
          if d1.isEmpty then none
          else
            match rest1.drop d1.length with
            | ':' :: rest2 =>
              if (rest2.takeWhile isDigitC).isEmpty then none
              else some (String.mk (cs.take t), digitsToNat d1)
            | _ => none
        | _ => none)

/-- The stack-frame regex `(?:at .+\()?([^\s(]+):(\d+):\d+\)?` anchored
at a start position: the greedy optional prefix group is tried first;
inside it `.+` (no line terminators) backtracks from the longest run,
so the candidate `(` positions are tried right to left.  The trailing
`\)?` can always match empty and is dropped. -/
def matchStackAt (t : List Char) : Option (String × Nat) :=
  let viaGroup : Option (String × Nat) :=
    if ("at ".toList).isPrefixOf t then
      let body := t.drop 3
      ((List.range body.length).reverse).findSome? (fun j =>
        if j = 0 then none
        else
          if (body.take j).all (fun c => c ≠ '\n' && c ≠ '\r') then
            match body.drop j with
            | '(' :: rest => captureColonPart rest
            | _ => none
          else none)
    else none
  match viaGroup with
  | some r => some r
  | none => captureColonPart t

/-- The generic regex `([^\s:]+\.\w+):(\d+)` anchored at a start
position: `[^\s:]+` is greedy, so the `.` candidates inside the
`[^\s:]`-run are tried right to left; `\w+` must then be the maximal
word run (a shorter one would leave a word character where `:` is
required), followed by `:` and at least one digit. -/
def matchFileColAt (t : List Char) : Option (String × Nat) :=
  let a := t.takeWhile (fun c => !isJsWs c && c ≠ ':')
  ((List.range a.length).reverse).findSome? (fun p =>
    if p = 0 then none
    else
      match t.drop p with
      | '.' :: rest =>
        let w := rest.takeWhile isWordC
        if w.isEmpty then none
        else
          match rest.drop w.length with
          | ':' :: rest2 =>
            let ds := rest2.takeWhile isDigitC
            if ds.isEmpty then none
            else some (String.mk (t.take p ++ '.' :: w), digitsToNat ds)
          | _ => none
      | _ => none)

/-- Embedding of `extractLocation(errorLine)`: the three regexes are
tried in order; each is searched leftmost-first over the line. -/
def extractLocation (line : String) : Option String × Option Nat :=
  match firstSome line.toList matchFileLineAt with
  | some (f, n) => (some f, some n)
  | none =>
    match firstSome line.toList matchStackAt with
    | some (f, n) => (some f, some n)
    | none =>
      match firstSome line.toList matchFileColAt with
      | some (f, n) => (some f, some n)
      | none => (none, none)

/-- One structured entry produced by `parseErrorLog`. -/
structure ErrRecord where
  bugType : BugType
  file : Option String
  lineNumber : Option Nat
  rawMessage : String
  deriving DecidableEq, Repr

/-- The dedup key `` `${file}:${lineNum}:${bugType}` `` (JS renders
`null` as the string `"null"`). -/
def dedupKey (f : Option String) (n : Option Nat) (b : BugType) : String :=
  (match f with | none => "null" | some s => s) ++ ":" ++
    (match n with | none => "null" | some k => toString k) ++ ":" ++ bugTypeStr b

/-- The loop body of `parseErrorLog`: discard lines that classify as
`UNKNOWN` and contain neither "Error" nor "FAIL" (case-sensitive),
deduplicate by key, push `{bugType, file, lineNumber, rawMessage}`. -/
def parseLines (seen : List String) : List String → List ErrRecord
  | [] => []
  | line :: rest =>
    let b := classifyError line
    if b = .UNKNOWN && !strContains line "Error" && !strContains line "FAIL" then
      parseLines seen rest
    else
      let loc := extractLocation line
      let key := dedupKey loc.1 loc.2 b
      if seen.contains key then parseLines seen rest
      else ⟨b, loc.1, loc.2, jsTrim line⟩ :: parseLines (key :: seen) rest

/-- Embedding of `parseErrorLog(rawLog)`: split on newlines, keep lines
whose trim is truthy (nonempty), run the classification loop. -/
def parseErrorLog (raw : String) : List ErrRecord :=
  parseLines [] ((jsSplit '\n' raw).filter (fun l => jsTrim l ≠ ""))

/-! ### Fix generator (`backend/src/agents/fixer.js`, Gemini variant
with fallback chain — the contract the spec adopts) -/

/-- A fix proposal `{file, lineNumber, bugType, description,
originalCode, fixedCode, commitMessage}`.  `file` and `lineNumber` are
nullable (the classifier may produce `null`); `lineNumber` is any JSON
integer. -/
structure FixProposal where
  file : Option String
  lineNumber : Option Int
  bugType : String
  description : String
  originalCode : String
  fixedCode : String
  commitMessage : String
  deriving DecidableEq, Repr

/-- The placeholder proposal built in the `catch` branch of
`generateFixes` for a classified error `e`: empty `originalCode` and
`fixedCode` and the synthesized commit message
`` `[AI-AGENT] Fix ${e.bugType} error in ${e.file || "unknown"} line ${e.lineNumber || "?"}` ``. -/
def placeholderOf (e : ErrRecord) : FixProposal :=
  { file := e.file
    lineNumber := e.lineNumber.map Int.ofNat
    bugType := bugTypeStr e.bugType
    description := e.rawMessage
    originalCode := ""
    fixedCode := ""
    commitMessage :=
      "[AI-AGENT] Fix " ++ bugTypeStr e.bugType ++ " error in " ++
        (match e.file with
         | some f => if f = "" then "unknown" else f
         | none => "unknown") ++
        " line " ++
        (match e.lineNumber with
         | some n => if n = 0 then "?" else toString n
         | none => "?") }

/-- Model of `content.match(/\[[\s\S]*\]/)`: the match starts at the
first `[` and, `[\s\S]*` being greedy, ends at the last `]`; it exists
iff some `]` occurs strictly after the first `[`. -/
def extractJsonArray (content : List Char) : Option (List Char) :=
  match content.findIdx? (fun c => c = '[') with
  | none => none
  | some i =>
    match content.reverse.findIdx? (fun c => c = ']') with
    | none => none
    | some jr =>
      let j := content.length - 1 - jr
      if i < j then some ((content.drop i).take (j - i + 1)) else none

/-- How the LLM call `_invokeWithFallback` can end for `generateFixes`:
it threw (every model rate-limit-exhausted, or a non-rate-limit error
propagated), or it returned response text. -/
inductive LLMOutcome where
  | threw
  | responded (content : String)

/-- Embedding of `generateFixes(errorOutput, repoDir)` viewed as a
function of the LLM outcome.  `parseJson` stands for `JSON.parse` on
the extracted array text (`none` = parse threw, landing in the same
`catch` as an LLM failure).  Classified errors come from
`parseErrorLog`; a missing JSON array yields the empty list; the
`catch` branch yields one placeholder per classified error. -/
def generateFixes (parseJson : String → Option (List FixProposal))
    (outcome : LLMOutcome) (errorOutput : String) : List FixProposal :=
  let parsedErrors := parseErrorLog errorOutput
  match outcome with
  | .threw => parsedErrors.map placeholderOf
  | .responded content =>
    match extractJsonArray (jsTrim content).toList with
    | none => []
    | some arr =>
      match parseJson (String.mk arr) with
      | some fixes => fixes
      | none => parsedErrors.map placeholderOf

/-! ### Patch applier (`fixer.js`, `applyFixes`) -/

/-- Terminal status of an attempted fix. -/
inductive FixStatus where
  | Fixed | Failed | Skipped
  deriving DecidableEq, Repr

/-- A fix proposal after application: `{...fix, status, reason?}`. -/
structure AppliedFix where
  fix : FixProposal
  status : FixStatus
  reason : Option String
  deriving DecidableEq, Repr

/-- The filesystem as a partial map from paths to file contents. -/
def FS : Type := String → Option String

/-- Write a file. -/
def updateFS (fs : FS) (p : String) (c : String) : FS :=
  fun q => if q = p then some c else fs q

/-- Model of `path.resolve(repoDir, fix.file)` for the relative paths
the agent handles. -/
def resolvePath (repoDir file : String) : String := repoDir ++ "/" ++ file

/-- Leftmost occurrence index of `pat` in `l`. -/
def firstOccur (l pat : List Char) : Option Nat :=
  (List.range (l.length + 1)).findSome? (fun i =>
    if pat.isPrefixOf (l.drop i) then some i else none)

/-- Model of JS `content.replace(originalCode, fixedCode)` with a string
pattern: replace the first occurrence (the replacement is treated
literally). -/
def replaceFirst (s pat rep : String) : String :=
  match firstOccur s.toList pat.toList with
  | none => s
  | some i =>
    String.mk (s.toList.take i ++ rep.toList ++ s.toList.drop (i + pat.toList.length))

/-- Model of `content.split("\n")`. -/
def splitLines (content : String) : List String := jsSplit '\n' content

/-- Model of `lines.join("\n")`. -/
def joinLines (lines : List String) : String :=
  String.mk (joinWithNl (lines.map String.data))

/-- Model of `lines[n - 1] = v` for a JS number `n`: a valid index is
overwritten; a negative index only creates a non-index property, which
`join` ignores, so the elements are unchanged. -/
def setLineJs (lines : List String) (n : Int) (v : String) : List String :=
  if 1 ≤ n then lines.set (n - 1).toNat v else lines

/-- Embedding of one round of the `applyFixes` loop for proposal `fix`:
skip incomplete proposals; fail when the file is missing; replace the
first occurrence of `originalCode` when present; otherwise attempt the
line-based replacement guarded by `fix.lineNumber &&
fix.lineNumber <= lines.length` (zero and `null` are falsy). -/
def applyOne (repoDir : String) (fs : FS) (fix : FixProposal) : FS × AppliedFix :=
  if jsFalsyStr fix.file || fix.originalCode = "" || fix.fixedCode = "" then
    (fs, ⟨fix, .Skipped, none⟩)
  else
    let p := resolvePath repoDir (fix.file.getD "")
    match fs p with
    | none => (fs, ⟨fix, .Failed, some "File not found"⟩)
    | some content =>
      if strContains content fix.originalCode then
        (updateFS fs p (replaceFirst content fix.originalCode fix.fixedCode),
         ⟨fix, .Fixed, none⟩)
      else
        let lines := splitLines content
        match fix.lineNumber with
        | none => (fs, ⟨fix, .Failed, some "Original code not found"⟩)
        | some n =>
          if n ≠ 0 ∧ n ≤ (lines.length : Int) then
            (updateFS fs p (joinLines (setLineJs lines n fix.fixedCode)),
             ⟨fix, .Fixed, none⟩)
          else (fs, ⟨fix, .Failed, some "Original code not found"⟩)

/-- Embedding of `applyFixes(fixes, repoDir)`: proposals are applied in
input order, threading the filesystem, collecting one result each. -/
def applyFixes (repoDir : String) (fixes : List FixProposal) (fs : FS) :
    FS × List AppliedFix :=
  match fixes with
  | [] => (fs, [])
  | fix :: rest =>
    let step := applyOne repoDir fs fix
    let restRes := applyFixes repoDir rest step.1
    (restRes.1, step.2 :: restRes.2)

/-! ### Submit-run endpoint (`backend/src/routes/agent.js` and
`parseRepoUrl` in `helpers.js`) -/

/-- Match of `github\.com\/([^/]+)\/([^/.]+)` anchored at a suffix:
the literal, then a nonempty slash-free owner run (so the slash that
follows it is the first slash), then a character that is neither `/`
nor `.`. -/
def repoMatchAt (t : List Char) : Bool :=
  ("github.com/".toList).isPrefixOf t &&
    (let rest := t.drop 11
     let owner := rest.takeWhile (fun c => c ≠ '/')
     !owner.isEmpty &&
       (match rest.drop owner.length with
        | '/' :: c :: _ => c ≠ '/' && c ≠ '.'
        | _ => false))

/-- Whether `url.match(/github\.com\/([^/]+)\/([^/.]+)/)` succeeds,
i.e. whether `parseRepoUrl` returns instead of throwing. -/
def parseRepoUrlMatches (url : String) : Bool :=
  url.toList.tails.any repoMatchAt

/-- URL shape written from the spec's words: exactly
`https://github.com/{owner}/{repo}` with an optional `.git` suffix,
owner and repo nonempty path segments. -/
def specGithubUrl (s : String) : Bool :=
  let l := s.toList
  let pre := "https://github.com/".toList
  if pre.isPrefixOf l then
    let rest := l.drop pre.length
    let core := if (".git".toList).isSuffixOf rest then rest.take (rest.length - 4) else rest
    match splitOnChar '/' core with
    | [owner, repo] => !owner.isEmpty && !repo.isEmpty
    | _ => false
  else false

/-- Response of the `POST /run-agent` handler, as far as validation is
concerned. -/
inductive SubmitResponse where
  | validationError (messages : List String)
  | invalidUrl
  | accepted
  deriving DecidableEq, Repr

/-- Embedding of the validation part of the `POST /run-agent` handler:
collect missing-field messages in order; 400 `Validation Error` if any;
else 400 `Invalid Repository URL` when `parseRepoUrl` throws; else 202.
Body fields are nullable strings (absent = `none`). -/
def runAgentHandler (repoUrl teamName leaderName : Option String) : SubmitResponse :=
  let errors :=
    (if jsFalsyStr repoUrl then ["repoUrl is required"] else []) ++
    (if jsFalsyStr teamName then ["teamName is required"] else []) ++
    (if jsFalsyStr leaderName then ["leaderName is required"] else [])
  if errors ≠ [] then .validationError errors
  else if parseRepoUrlMatches (repoUrl.getD "") then .accepted
  else .invalidUrl

/-! ### Orchestrator heal loop (`backend/src/agents/orchestrator.js`,
`run`, `addTimeline`, `buildResults`) -/

/-- Timeline statuses. -/
inductive TStatus where
  | PASSED | FAILED | NO_FIXES | APPLY_FAILED | CI_PASSED | ERROR
  deriving DecidableEq, Repr

/-- One timeline entry `{iteration, status}` (the wall-clock timestamp
is not modelled). -/
structure TimelineEntry where
  iteration : Nat
  status : TStatus
  deriving DecidableEq, Repr

/-- Outcome of one repair iteration, capturing exactly the branch
conditions of the loop body: an agent call threw before any timeline
entry for the iteration (`generateFixes`/`applyFixes`/
`commitAndPush`/`runTests` — a `monitorCI` throw is caught locally and
is `failedCI false`); no fixes generated; zero fixes applied; retest
passed; retest failed with the CI monitor reporting pass or not. -/
inductive IterOutcome where
  | threw
  | noFixes
  | applyFailed
  | passed
  | failedCI (ciPassed : Bool)

/-- Outcome of the initial analysis: `analyze` threw before
`fs.ensureDir` created `tmp/{runId}`; it threw after the directory
existed (clone failures, detection, test run); or it returned with the
first test result. -/
inductive AnalysisOutcome where
  | threwBeforeDir
  | threwAfterDir
  | ok (passed : Bool)

/-- The `for (iteration = 1; iteration <= RETRY_LIMIT; ...)` loop.
Returns the timeline entries it appends, whether `finalStatus` was set
to `PASSED`, and how many iterations were entered.  On a throw the
`catch` outside the loop appends the `ERROR` entry for the current
iteration. -/
def runLoop (iters : Nat → IterOutcome) : Nat → Nat → List TimelineEntry × Bool × Nat
  | 0, _ => ([], false, 0)
  | fuel + 1, i =>
    match iters i with
    | .threw => ([⟨i, .ERROR⟩], false, 1)
    | .noFixes => ([⟨i, .NO_FIXES⟩], false, 1)
    | .applyFailed => ([⟨i, .APPLY_FAILED⟩], false, 1)
    | .passed => ([⟨i, .PASSED⟩], true, 1)
    | .failedCI true => ([⟨i, .FAILED⟩, ⟨i, .CI_PASSED⟩], true, 1)
    | .failedCI false =>
      let rest := runLoop iters fuel (i + 1)
      (⟨i, .FAILED⟩ :: rest.1, rest.2.1, rest.2.2 + 1)

/-- Observable end state of `Orchestrator.run`: the timeline of the
final report, the final status, and whether `tmp/{runId}` still exists
after the `pipeline_done` event (cleanup runs only when `repoDir` was
assigned, i.e. when `analyze` returned, and only removes the directory
when `fs.remove` succeeds). -/
structure RunResult where
  timeline : List TimelineEntry
  finalStatusPassed : Bool
  tmpDirExists : Bool
  deriving Repr

/-- Embedding of `Orchestrator.run` over the outcomes of its agent
calls.  `L` is `RETRY_LIMIT`; `removeOk` is whether the final
`fs.remove(repoDir)` succeeds. -/
def orchestratorRun (L : Nat) (analysis : AnalysisOutcome)
    (iters : Nat → IterOutcome) (removeOk : Bool) : RunResult :=
  match analysis with
  | .threwBeforeDir =>
    { timeline := [⟨0, .ERROR⟩], finalStatusPassed := false, tmpDirExists := false }
  | .threwAfterDir =>
    { timeline := [⟨0, .ERROR⟩], finalStatusPassed := false, tmpDirExists := true }
  | .ok true =>
    { timeline := [⟨0, .PASSED⟩], finalStatusPassed := true, tmpDirExists := !removeOk }
  | .ok false =>
    let loop := runLoop iters L 1
    { timeline := ⟨0, .FAILED⟩ :: loop.1
      finalStatusPassed := loop.2.1
      tmpDirExists := !removeOk }

/-- The `iterationCount` handed to `computeScore` by `buildResults`:
`this.timeline.length - 1`. -/
def scoreIterationCount (r : RunResult) : Int :=
  (r.timeline.length : Int) - 1

/-- Number of repair iterations actually entered by the loop. -/
def executedIterations (L : Nat) (analysis : AnalysisOutcome)
    (iters : Nat → IterOutcome) : Nat :=
  match analysis with
  | .ok false => (runLoop iters L 1).2.2
  | _ => 0

/-- Whether the run's timeline carries a `CI_PASSED` entry. -/
def hasCIPassedEntry (r : RunResult) : Bool :=
  r.timeline.any (fun e => e.status = TStatus.CI_PASSED)

/-! ### Helper lemmas -/

/-- On a whitespace head, `specCollapse` emits one underscore for the
whole run. -/
theorem specCollapse_cons_ws (rest : List Char) :
    ∀ c : Char, isJsWs c = true →
      specCollapse (c :: rest) = '_' :: specCollapse (rest.dropWhile isJsWs) := by
  induction rest with
  | nil => intro c h; simp [specCollapse, h, List.dropWhile]
  | cons d rs ih =>
    intro c h
    by_cases hd : isJsWs d = true
    · rw [show specCollapse (c :: d :: rs) = specCollapse (d :: rs) by
        simp [specCollapse, h, hd]]
      rw [ih d hd]
      simp [List.dropWhile, hd]
    · rw [show specCollapse (c :: d :: rs) = '_' :: specCollapse (d :: rs) by
        simp [specCollapse, h, hd]]
      simp [List.dropWhile, hd]

/-- The flag automaton `collapseWsAux` computes the same collapse as the
lookahead formulation `specCollapse`. -/
theorem collapseWsAux_eq_spec (l : List Char) :
    collapseWsAux false l = specCollapse l ∧
      collapseWsAux true l = specCollapse (l.dropWhile isJsWs) := by
  induction l with
  | nil => exact ⟨rfl, rfl⟩
  | cons c rest ih =>
    by_cases h : isJsWs c = true
    · constructor
      · rw [specCollapse_cons_ws rest c h]
        simp [collapseWsAux, h, ih.2]
      · simp [collapseWsAux, h, List.dropWhile, ih.2]
    · have hs : specCollapse (c :: rest) = c :: specCollapse rest := by
        simp [specCollapse, h]
      constructor
      · simp [collapseWsAux, h, ih.1, hs]
      · simp [collapseWsAux, h, List.dropWhile, ih.1, hs]

/-- No whitespace survives `collapseWsAux`. -/
theorem collapseWsAux_no_ws (flag : Bool) (l : List Char) :
    (collapseWsAux flag l).any isJsWs = false := by
  induction l generalizing flag with
  | nil => cases flag <;> rfl
  | cons c rest ih =>
    have hu : isJsWs '_' = false := rfl
    by_cases h : isJsWs c = true
    · cases flag <;> simp [collapseWsAux, h, ih, hu]
    · have h' : isJsWs c = false := by revert h; cases isJsWs c <;> simp
      simp [collapseWsAux, h', ih]

/-- Every string contains the empty string. -/
theorem strContains_empty (s : String) : strContains s "" = true := by
  have : ([] : List Char) ∈ s.toList.tails := by
    simp [List.mem_tails]
  simp only [strContains]
  exact List.any_eq_true.mpr ⟨[], this, by simp [List.isPrefixOf]⟩

/-- Length bound for the loop timeline: at most one entry per available
iteration plus one extra for a final `CI_PASSED`. -/
theorem runLoop_length_le (iters : Nat → IterOutcome) (fuel i : Nat) :
    (runLoop iters fuel i).1.length ≤ fuel + 1 := by
  induction fuel generalizing i with
  | zero => simp [runLoop]
  | succ n ih =>
    cases h : iters i with
    | threw => simp [runLoop, h]
    | noFixes => simp [runLoop, h]
    | applyFailed => simp [runLoop, h]
    | passed => simp [runLoop, h]
    | failedCI b =>
      cases b
      · have := ih (i + 1)
        simp only [runLoop, h, List.length_cons]
        omega
      · simp [runLoop, h]

/-- The loop timeline length is the number of iterations entered, plus
one exactly when a `CI_PASSED` entry was recorded. -/
theorem runLoop_length_eq (iters : Nat → IterOutcome) (fuel i : Nat) :
    (runLoop iters fuel i).1.length =
      (runLoop iters fuel i).2.2 +
        (if (runLoop iters fuel i).1.any (fun e => e.status = TStatus.CI_PASSED)
         then 1 else 0) := by
  induction fuel generalizing i with
  | zero => simp [runLoop]
  | succ n ih =>
    cases h : iters i with
    | threw => simp [runLoop, h]
    | noFixes => simp [runLoop, h]
    | applyFailed => simp [runLoop, h]
    | passed => simp [runLoop, h]
    | failedCI b =>
      cases b
      · have := ih (i + 1)
        simp only [runLoop, h, List.length_cons, List.any_cons]
        simp only [TStatus.FAILED.sizeOf_spec] at *
        simp only [show (decide (TStatus.FAILED = TStatus.CI_PASSED)) = false from rfl,
          Bool.false_or]
        omega
      · simp [runLoop, h]

/-- Skipped verdict for a proposal with empty `originalCode`. -/
theorem applyOne_skipped (repoDir : String) (fs : FS) (fix : FixProposal)
    (h : fix.originalCode = "") :
    applyOne repoDir fs fix = (fs, ⟨fix, .Skipped, none⟩) := by
  simp [applyOne, h]

/-- Every proposal in a batch with empty `originalCode` ends `Skipped`. -/
theorem applyFixes_all_skipped (repoDir : String) (fixes : List FixProposal)
    (fs : FS) (h : ∀ f ∈ fixes, f.originalCode = "") :
    ∀ r ∈ (applyFixes repoDir fixes fs).2, r.status = .Skipped := by
  induction fixes generalizing fs with
  | nil => simp [applyFixes]
  | cons fix rest ih =>
    intro r hr
    rw [applyFixes] at hr
    rw [applyOne_skipped repoDir fs fix (h fix (by simp))] at hr
    rcases List.mem_cons.mp hr with h1 | h1
    · rw [h1]
    · exact ih _ (fun f hf => h f (List.mem_cons_of_mem _ hf)) r h1

/-! ### Claim C3 — scoring function -/

/-- C3 counterexample: at `commitCount = 25`, `fixCount = 10`,
`iterationCount = 3`, `totalTime = 200000` the breakdown's
`commitPenalty` field is `-10`, not `max(0, 25 - 20) * 2 = 10` as the
claim states: the code stores the penalties negated. -/
theorem c3_counterexample :
    (computeScore 200000 25 10 3).commitPenalty = -10 ∧
      max 0 ((25 : Int) - 20) * 2 = 10 ∧
      (computeScore 200000 25 10 3).commitPenalty ≠ max 0 ((25 : Int) - 20) * 2 := by
  refine ⟨rfl, by decide, by decide⟩

/-- C3 (amended): `computeScore` returns `base = 100`,
`speedBonus = 10` iff `totalTimeMs < 300000` else `0`,
`fixBonus = min(fixCount, 20) * 2`, the negated penalties
`commitPenalty = -(max(0, commitCount - 20) * 2)` and
`iterationPenalty = -(max(0, iterationCount - 3) * 5)`, and
`total = max(0, base + speedBonus + fixBonus + commitPenalty +
iterationPenalty)`; the claim's concrete input
`commitCount = 25, fixCount = 10, iterationCount = 3,
totalTime = 200000` yields `total = 120`. -/
theorem c3_score_breakdown (t c f i : Int) :
    computeScore t c f i =
      { base := 100
        speedBonus := if t < 300000 then 10 else 0
        fixBonus := min f 20 * 2
        commitPenalty := -(max 0 (c - 20) * 2)
        iterationPenalty := -(max 0 (i - 3) * 5)
        total := max 0 (100 + (if t < 300000 then 10 else 0) + min f 20 * 2
                          + -(max 0 (c - 20) * 2) + -(max 0 (i - 3) * 5)) } ∧
      (computeScore 200000 25 10 3).total = 120 := by
  refine ⟨?_, by decide⟩
  simp only [computeScore, ScoreBreakdown.mk.injEq, true_and, and_true, eq_self_iff_true]
  refine ⟨?_, ?_, ?_⟩ <;> split_ifs <;> omega

/-! ### Claim C6 — sandbox timeout policy -/

/-- C6 counterexample: in the native-fallback mode a timed-out command
comes back with exit code `error.code || 1 = 1` (Node passes `code =
null` for the killed child) and whatever stderr the child produced —
not exit code 124 with the TIMEOUT marker as the claim states for both
modes. -/
theorem c6_counterexample :
    nativeResult (.timedOutKilled "partial out" "partial err") =
      { exitCode := 1, stdout := "partial out", stderr := "partial err" } ∧
      (1 : Int) ≠ 124 ∧ "partial err" ≠ TIMEOUT_MARKER := by
  refine ⟨rfl, by decide, by decide⟩

/-- C6 (amended): on timeout the container mode returns exit code 124
and stderr equal to the fixed TIMEOUT marker; the native-fallback mode
instead returns exit code 1 (`error.code || 1` with `code = null` for
the killed child) and the child's truncated streams. -/
theorem c6_timeout_policy :
    dockerContainerResult .timedOut =
      { exitCode := 124, stdout := "", stderr := TIMEOUT_MARKER } ∧
      ∀ o e : String,
        (nativeResult (.timedOutKilled o e)).exitCode = 1 ∧
          (nativeResult (.timedOutKilled o e)).stdout = truncJs o ∧
          (nativeResult (.timedOutKilled o e)).stderr = truncJs e :=
  ⟨rfl, fun _ _ => ⟨rfl, rfl, rfl⟩⟩

/-! ### Claim C7 — working-tree cleanup -/

/-- C7 counterexample: when the initial analysis throws after
`fs.ensureDir` created `tmp/{runId}` (for example both clone attempts
fail), `repoDir` is never assigned, the cleanup guard `if (repoDir)`
skips removal, and the directory still exists after the terminal
event — even though removal itself would have succeeded. -/
theorem c7_counterexample :
    (orchestratorRun 5 .threwAfterDir (fun _ => .noFixes) true).tmpDirExists = true := rfl

/-- C7 (amended): the run's tmp directory is gone after the terminal
event whenever the initial analysis returned (so `repoDir` was
assigned) and the final `fs.remove` succeeds, and trivially when the
analysis threw before the directory was created; on the path where the
analysis throws after creating the directory it persists. -/
theorem c7_cleanup (L : Nat) (iters : Nat → IterOutcome) (p : Bool) :
    (orchestratorRun L (.ok p) iters true).tmpDirExists = false ∧
      (orchestratorRun L .threwBeforeDir iters true).tmpDirExists = false := by
  cases p <;> exact ⟨rfl, rfl⟩

/-! ### Claim C8 — branch-name derivation -/

/-- C8 counterexample: the claim's derivation (uppercase, strip,
collapse, join, suffix) omits the initial `trim`; on a team name with
leading whitespace the code and the claimed derivation disagree. -/
theorem c8_counterexample :
    generateBranchName " a" "b" = "A_B_AI_Fix" ∧
      claimBranchName " a" "b" = "_A_B_AI_Fix" ∧
      generateBranchName " a" "b" ≠ claimBranchName " a" "b" := by
  refine ⟨by decide, by decide, by decide⟩

/-- C8 (amended): the derived branch name is obtained by trimming each
of team and leader, uppercasing, stripping characters that are neither
uppercase alphanumerics nor whitespace, collapsing each whitespace run
to a single underscore, joining the two with an underscore and
appending the fixed suffix `_AI_Fix`; the derivation is a total pure
function and no whitespace character ever appears in the result. -/
theorem c8_branch_name (team leader : String) :
    generateBranchName team leader =
      claimSanitize (jsTrim team) ++ "_" ++ claimSanitize (jsTrim leader) ++ "_AI_Fix" ∧
      (generateBranchName team leader).toList.any isJsWs = false := by
  constructor
  · have h1 : sanitize team = claimSanitize (jsTrim team) := by
      simp only [sanitize, claimSanitize]
      exact congrArg String.mk (collapseWsAux_eq_spec _).1
    have h2 : sanitize leader = claimSanitize (jsTrim leader) := by
      simp only [sanitize, claimSanitize]
      exact congrArg String.mk (collapseWsAux_eq_spec _).1
    simp only [generateBranchName, h1, h2]
  · show ((generateBranchName team leader).data).any isJsWs = false
    simp only [generateBranchName, String.data_append]
    simp only [List.any_append, Bool.or_eq_false_iff]
    refine ⟨⟨⟨?_, by decide⟩, ?_⟩, by decide⟩
    · exact collapseWsAux_no_ws false _
    · exact collapseWsAux_no_ws false _

/-! ### Claim C2 — retry bound on the timeline -/

/-- C2 counterexample: with the default `RETRY_LIMIT = 5`, a run whose
tests keep failing and whose CI monitor reports success in iteration 5
records both a `FAILED` and a `CI_PASSED` entry for that iteration, so
the timeline has 7 entries, exceeding the claimed bound
`RETRY_LIMIT + 1 = 6`. -/
theorem c2_counterexample :
    ¬ ((orchestratorRun 5 (.ok false) (fun i => .failedCI (i == 5)) true).timeline.length
        ≤ 5 + 1) := by decide

/-- C2 (amended): for every run the timeline contains at most
`RETRY_LIMIT + 2` entries — one for the initial analysis, at most one
per repair iteration, plus one extra `CI_PASSED` entry when the run
ends with the CI monitor reporting success (the loop then records both
`FAILED` and `CI_PASSED` for its final iteration). -/
theorem c2_timeline_bound (L : Nat) (analysis : AnalysisOutcome)
    (iters : Nat → IterOutcome) (removeOk : Bool) :
    (orchestratorRun L analysis iters removeOk).timeline.length ≤ L + 2 := by
  cases analysis with
  | threwBeforeDir => simp [orchestratorRun]
  | threwAfterDir => simp [orchestratorRun]
  | ok p =>
    cases p with
    | true => simp [orchestratorRun]
    | false =>
      have h := runLoop_length_le iters L 1
      simp only [orchestratorRun, List.length_cons]
      omega

/-! ### Claim C4 — iteration count supplied to scoring -/

/-- C4 counterexample: a run whose first iteration fails its retest and
then ends with `CI_PASSED` records three timeline entries, so
`buildResults` passes `iterationCount = timeline.length - 1 = 2` to the
scoring function although only one repair iteration was executed. -/
theorem c4_counterexample :
    scoreIterationCount (orchestratorRun 5 (.ok false) (fun i => .failedCI (i == 1)) true)
        = 2 ∧
      executedIterations 5 (.ok false) (fun i => .failedCI (i == 1)) = 1 ∧
      (2 : Int) ≠ 1 := by
  refine ⟨by decide, by decide, by decide⟩

/-- C4 (amended): the `iterationCount` supplied to the scoring function
is `timeline.length - 1`; it equals the number of repair iterations
actually entered, except that it is one larger on runs whose timeline
ends with a `CI_PASSED` entry (that iteration contributes two
entries). -/
theorem c4_iteration_count (L : Nat) (analysis : AnalysisOutcome)
    (iters : Nat → IterOutcome) (removeOk : Bool) :
    scoreIterationCount (orchestratorRun L analysis iters removeOk) =
      (executedIterations L analysis iters : Int) +
        (if hasCIPassedEntry (orchestratorRun L analysis iters removeOk) then 1 else 0) := by
  cases analysis with
  | threwBeforeDir => simp [orchestratorRun, scoreIterationCount, executedIterations,
      hasCIPassedEntry]
  | threwAfterDir => simp [orchestratorRun, scoreIterationCount, executedIterations,
      hasCIPassedEntry]
  | ok p =>
    cases p with
    | true => simp [orchestratorRun, scoreIterationCount, executedIterations,
        hasCIPassedEntry]
    | false =>
      have h := runLoop_length_eq iters L 1
      simp only [orchestratorRun, scoreIterationCount, executedIterations,
        hasCIPassedEntry, List.length_cons, List.any_cons]
      have hF : (decide (TStatus.FAILED = TStatus.CI_PASSED)) = false := rfl
      simp only [hF, Bool.false_or]
      split at h <;> rename_i hsplit <;> simp only [hsplit, if_true, if_false] <;> push_cast <;> omega

/-! ### Claim C9 — classifier totality and the UNKNOWN guard -/

/-- Records produced by the classification loop with kind `UNKNOWN` come
from a line containing "Error" or "FAIL". -/
theorem parseLines_unknown_mem (lines : List String) :
    ∀ (seen : List String) (e : ErrRecord), e ∈ parseLines seen lines →
      e.bugType = .UNKNOWN →
      ∃ line ∈ lines, e.rawMessage = jsTrim line ∧
        (strContains line "Error" = true ∨ strContains line "FAIL" = true) := by
  induction lines with
  | nil => intro seen e he; rw [parseLines] at he; cases he
  | cons line rest ih =>
    intro seen e he hu
    rw [parseLines] at he
    split at he
    · obtain ⟨l, hl, hp⟩ := ih seen e he hu
      exact ⟨l, List.mem_cons_of_mem _ hl, hp⟩
    · rename_i hguard
      simp only [] at he
      split at he
      · obtain ⟨l, hl, hp⟩ := ih _ e he hu
        exact ⟨l, List.mem_cons_of_mem _ hl, hp⟩
      · rcases List.mem_cons.mp he with h1 | h1
        · subst h1
          have hu' : classifyError line = BugType.UNKNOWN := hu
          refine ⟨line, List.mem_cons_self _ _, rfl, ?_⟩
          simp only [Bool.and_eq_true, Bool.not_eq_true'] at hguard
          by_cases hE : strContains line "Error" = true
          · exact Or.inl hE
          by_cases hF : strContains line "FAIL" = true
          · exact Or.inr hF
          exfalso
          apply hguard
          have hE' : strContains line "Error" = false := by
            revert hE; cases strContains line "Error" <;> simp
          have hF' : strContains line "FAIL" = false := by
            revert hF; cases strContains line "FAIL" <;> simp
          exact ⟨⟨by simp [hu'], hE'⟩, hF'⟩
        · obtain ⟨l, hl, hp⟩ := ih _ e h1 hu
          exact ⟨l, List.mem_cons_of_mem _ hl, hp⟩

/-- C9: the classifier is a total function into a finite list, and every
returned record with kind `UNKNOWN` stems from a source line of the raw
log that contains "Error" or "FAIL" (case-sensitively). -/
theorem c9_unknown_guard (raw : String) (e : ErrRecord)
    (he : e ∈ parseErrorLog raw) (hu : e.bugType = .UNKNOWN) :
    ∃ line ∈ jsSplit '\n' raw, e.rawMessage = jsTrim line ∧
      (strContains line "Error" = true ∨ strContains line "FAIL" = true) := by
  obtain ⟨l, hl, hp⟩ := parseLines_unknown_mem _ _ e he hu
  exact ⟨l, (List.mem_filter.mp hl).1, hp⟩

/-- C9 witness: the record classified from the log `"FAIL x"` has kind
`UNKNOWN` and its source line contains "FAIL". -/
theorem c9_witness :
    ∃ line ∈ jsSplit '\n' "FAIL x",
      (⟨BugType.UNKNOWN, none, none, "FAIL x"⟩ : ErrRecord).rawMessage = jsTrim line ∧
        (strContains line "Error" = true ∨ strContains line "FAIL" = true) :=
  c9_unknown_guard "FAIL x" ⟨BugType.UNKNOWN, none, none, "FAIL x"⟩ (by decide) rfl

/-! ### Claim C1 — degraded LLM modes -/

/-- C1 counterexample: on a run whose LLM response contains no JSON
array (here plain prose, for an error log with one classified error),
`generateFixes` returns the empty list — not one placeholder per
classified error — and the orchestrator then records `NO_FIXES`, not
`APPLY_FAILED`, for the iteration. -/
theorem c1_counterexample :
    parseErrorLog "TypeError: boom" ≠ [] ∧
      generateFixes (fun _ => none)
          (.responded "the model replied with prose only") "TypeError: boom" = [] ∧
      (orchestratorRun 5 (.ok false) (fun _ => .noFixes) true).timeline =
        [⟨0, .FAILED⟩, ⟨1, .NO_FIXES⟩] ∧
      TStatus.NO_FIXES ≠ TStatus.APPLY_FAILED := by
  refine ⟨by decide, by decide, by decide, by decide⟩

/-- C1 (amended): when the LLM invocation itself throws (all models
exhausted, or a non-rate-limit error), the Fix Generator emits one
placeholder proposal per classified error with empty
`originalCode`/`fixedCode`, the Patch Applier marks every such
placeholder `Skipped`, and an iteration in which no fix is applied
records `APPLY_FAILED`; when the LLM merely responds without a JSON
array, the Fix Generator instead returns the empty list (so such an
iteration records `NO_FIXES`). -/
theorem c1_degraded_modes (parseJson : String → Option (List FixProposal))
    (log content repoDir : String) (fs : FS) (L : Nat)
    (iters : Nat → IterOutcome) (removeOk : Bool)
    (hnoarr : extractJsonArray (jsTrim content).toList = none)
    (hit : iters 1 = .applyFailed) (hL : 1 ≤ L) :
    generateFixes parseJson .threw log = (parseErrorLog log).map placeholderOf ∧
      (∀ f ∈ (parseErrorLog log).map placeholderOf,
        f.originalCode = "" ∧ f.fixedCode = "") ∧
      (∀ r ∈ (applyFixes repoDir (generateFixes parseJson .threw log) fs).2,
        r.status = .Skipped) ∧
      generateFixes parseJson (.responded content) log = [] ∧
      (orchestratorRun L (.ok false) iters removeOk).timeline =
        [⟨0, .FAILED⟩, ⟨1, .APPLY_FAILED⟩] := by
  refine ⟨rfl, ?_, ?_, ?_, ?_⟩
  · intro f hf
    obtain ⟨e, _, rfl⟩ := List.mem_map.mp hf
    exact ⟨rfl, rfl⟩
  · apply applyFixes_all_skipped
    intro f hf
    obtain ⟨e, _, rfl⟩ := List.mem_map.mp hf
    rfl
  · simp only [generateFixes, hnoarr]
  · cases L with
    | zero => omega
    | succ n =>
      simp only [orchestratorRun, runLoop, hit]

/-- C1 witness: the degraded-mode theorem applied at a concrete
throwing run (one classified error) and a concrete no-array response,
with `RETRY_LIMIT = 5`. -/
theorem c1_witness :
    generateFixes (fun _ => none) .threw "TypeError: boom" =
      (parseErrorLog "TypeError: boom").map placeholderOf ∧
      (orchestratorRun 5 (.ok false) (fun _ => .applyFailed) true).timeline =
        [⟨0, .FAILED⟩, ⟨1, .APPLY_FAILED⟩] :=
  ⟨(c1_degraded_modes (fun _ => none) "TypeError: boom" "prose" "repo" (fun _ => none)
      5 (fun _ => .applyFailed) true (by decide) rfl (by decide)).1,
   (c1_degraded_modes (fun _ => none) "TypeError: boom" "prose" "repo" (fun _ => none)
      5 (fun _ => .applyFailed) true (by decide) rfl (by decide)).2.2.2.2⟩

/-! ### Claim C5 — patch applier line fallback -/

/-- Example filesystem with one two-line file. -/
def exFS : FS := fun q => if q = "repo/a.txt" then some "l1\nl2" else none

/-- Proposal whose `originalCode` is absent from the file and whose
`lineNumber` is negative. -/
def exFixNeg : FixProposal :=
  ⟨some "a.txt", some (-1), "SYNTAX", "d", "xyz", "w", "m"⟩

/-- Proposal whose `originalCode` is absent from the file and whose
`lineNumber` is the valid line 2. -/
def exFixPos : FixProposal :=
  ⟨some "a.txt", some 2, "SYNTAX", "d", "xyz", "w", "m"⟩

/-- C5 counterexample: a proposal with `lineNumber = -1` is present but
not within the file's bounds, so the claim demands
`Failed`/`Original code not found`; the code's guard
`fix.lineNumber && fix.lineNumber <= lines.length` accepts it (`-1` is
truthy and `≤ 2`), the negative index write changes nothing, and the
proposal is marked `Fixed` with the file unchanged. -/
theorem c5_counterexample :
    (applyOne "repo" exFS exFixNeg).2.status = .Fixed ∧
      (applyOne "repo" exFS exFixNeg).1 "repo/a.txt" = some "l1\nl2" ∧
      FixStatus.Fixed ≠ FixStatus.Failed := by
  refine ⟨by decide, by decide, by decide⟩

/-- C5 (amended): for a proposal whose `originalCode` does not occur in
the target file's content (with nonempty `file`/`fixedCode` and the
file present): if `lineNumber` is a line of the file (`1 ≤ n ≤ #lines`)
the applier overwrites line `n-1` with `fixedCode` and marks `Fixed`;
if `lineNumber` is negative the guard still accepts it, the file is
rewritten unchanged and the proposal is still marked `Fixed`; and if
`lineNumber` is absent, zero, or greater than the number of lines, the
proposal is marked `Failed` with reason `Original code not found`. -/
theorem c5_line_fallback (repoDir : String) (fs : FS) (fix : FixProposal)
    (content : String)
    (hfile : jsFalsyStr fix.file = false) (hfc : fix.fixedCode ≠ "")
    (hex : fs (resolvePath repoDir (fix.file.getD "")) = some content)
    (hnosub : strContains content fix.originalCode = false) :
    (∀ n : Int, fix.lineNumber = some n → 1 ≤ n →
        n ≤ ((splitLines content).length : Int) →
        (applyOne repoDir fs fix).2.status = .Fixed ∧
          (applyOne repoDir fs fix).1 (resolvePath repoDir (fix.file.getD "")) =
            some (joinLines ((splitLines content).set (n - 1).toNat fix.fixedCode))) ∧
      (∀ n : Int, fix.lineNumber = some n → n < 0 →
        (applyOne repoDir fs fix).2.status = .Fixed ∧
          (applyOne repoDir fs fix).1 (resolvePath repoDir (fix.file.getD "")) =
            some (joinLines (splitLines content))) ∧
      ((fix.lineNumber = none ∨ fix.lineNumber = some 0 ∨
          (∃ n : Int, fix.lineNumber = some n ∧ ((splitLines content).length : Int) < n)) →
        (applyOne repoDir fs fix).2 = ⟨fix, .Failed, some "Original code not found"⟩) := by
  have horig : fix.originalCode ≠ "" := by
    intro h0
    rw [h0, strContains_empty content] at hnosub
    cases hnosub
  have hcond : (jsFalsyStr fix.file || fix.originalCode = "" || fix.fixedCode = "") = false := by
    simp [hfile, horig, hfc]
  refine ⟨?_, ?_, ?_⟩
  · intro n hn h1 h2
    simp only [applyOne, hcond, Bool.false_eq_true, if_false, hex, hnosub, hn,
      setLineJs, if_pos h1, if_pos (And.intro (by omega : n ≠ 0) h2)]
    exact ⟨by simp, by simp [updateFS]⟩
  · intro n hn hneg
    have h2 : n ≤ ((splitLines content).length : Int) := by
      have : (0 : Int) ≤ (splitLines content).length := Int.ofNat_nonneg _
      omega
    simp only [applyOne, hcond, Bool.false_eq_true, if_false, hex, hnosub, hn,
      setLineJs, if_neg (by omega : ¬ (1 : Int) ≤ n),
      if_pos (And.intro (by omega : n ≠ 0) h2)]
    exact ⟨by simp, by simp [updateFS]⟩
  · intro hcases
    rcases hcases with hn | hn | ⟨n, hn, hbig⟩
    · simp only [applyOne, hcond, Bool.false_eq_true, if_false, hex, hnosub, hn]
    · simp only [applyOne, hcond, Bool.false_eq_true, if_false, hex, hnosub, hn,
        if_neg (by omega : ¬ ((0 : Int) ≠ 0 ∧ (0 : Int) ≤ ((splitLines content).length : Int)))]
    · simp only [applyOne, hcond, Bool.false_eq_true, if_false, hex, hnosub, hn,
        if_neg (show ¬ (n ≠ 0 ∧ n ≤ ((splitLines content).length : Int)) by omega)]

/-- C5 witness: the amended theorem applied at a concrete file
`"l1\nl2"` and the valid line 2: the proposal is `Fixed` and line 2 is
overwritten. -/
theorem c5_witness :
    (applyOne "repo" exFS exFixPos).2.status = .Fixed ∧
      (applyOne "repo" exFS exFixPos).1 "repo/a.txt" =
        some (joinLines ((splitLines "l1\nl2").set 1 "w")) :=
  (c5_line_fallback "repo" exFS exFixPos "l1\nl2" (by decide) (by decide)
      (by decide) (by decide)).1 2 rfl (by decide) (by decide)

/-! ### Claim C10 — submit-run URL validation -/

/-- C10 counterexample: the unanchored regex of `parseRepoUrl` accepts
`"github.com/a/b"`, which does not parse as
`https://github.com/{owner}/{repo}[.git]`, and rejects the well-formed
URL `https://github.com/a/.github` (the repo segment `[^/.]+` may not
start with a dot), so acceptance is not equivalent to the claimed URL
shape in either direction. -/
theorem c10_counterexample :
    runAgentHandler (some "github.com/a/b") (some "t") (some "l") = .accepted ∧
      specGithubUrl "github.com/a/b" = false ∧
      runAgentHandler (some "https://github.com/a/.github") (some "t") (some "l") =
        .invalidUrl ∧
      specGithubUrl "https://github.com/a/.github" = true := by
  refine ⟨by decide, by decide, by decide, by decide⟩

/-- C10 (amended): with all three body fields present and nonempty, the
endpoint accepts (202) exactly when the repoUrl contains a substring
matching the unanchored pattern `github.com/{owner}/{repoHead}` (owner
a nonempty slash-free run, followed by `/` and a character that is
neither `/` nor `.`); otherwise it responds with the invalid-URL 400,
which is distinct from the missing-field validation 400. -/
theorem c10_url_validation (r t l : String) (hr : r ≠ "") (ht : t ≠ "") (hl : l ≠ "") :
    runAgentHandler (some r) (some t) (some l) =
      (if parseRepoUrlMatches r then .accepted else .invalidUrl) ∧
      (∀ msgs, SubmitResponse.invalidUrl ≠ SubmitResponse.validationError msgs ∧
        SubmitResponse.accepted ≠ SubmitResponse.validationError msgs) := by
  constructor
  · simp only [runAgentHandler, jsFalsyStr, hr, ht, hl]
    simp
  · intro msgs
    exact ⟨fun h => SubmitResponse.noConfusion h, fun h => SubmitResponse.noConfusion h⟩

/-- C10 witness: the amended theorem applied at a well-formed
submission; the URL matches and the request is accepted. -/
theorem c10_witness :
    runAgentHandler (some "https://github.com/o/r") (some "team") (some "lead") =
      (if parseRepoUrlMatches "https://github.com/o/r" then SubmitResponse.accepted
       else SubmitResponse.invalidUrl) :=
  (c10_url_validation "https://github.com/o/r" "team" "lead" (by decide) (by decide)
      (by decide)).1

end PipelineSage
